import Mathlib

/-!
# Verification of the `@bytware/logger` formatting and filtering core

A shallow embedding of `src/index.ts`.  JavaScript objects are modelled by an
explicit heap (`Heap`, a list of `ObjNode` indexed by address) so that cyclic
object graphs can be expressed; JS values (`JsVal`) are primitives or heap
references.  `JSON.stringify` with the circular-reference replacer is modelled
by a fuel-indexed structural recursion (`strVal`), together with a proof that
the fuel bound `heap size + 1` always suffices, so the modelled serializer is
total.  The `Logger` class is modelled both as a pure structure (its context)
and, for aliasing questions, as a store of contexts indexed by logger identity.
-/

set_option linter.unusedVariables false
set_option maxRecDepth 8000

namespace Bytware

/-- A JavaScript value as used by the logger: primitives, a heap reference
(for objects), and a BigInt (which `JSON.stringify` refuses to serialize).
`undefined` is the JS `undefined` value. -/
inductive JsVal where
  | undefined
  | null
  | bool (b : Bool)
  | num (n : Int)
  | str (s : String)
  | ref (a : Nat)
  | bigintV (n : Int)
deriving DecidableEq

/-- A heap object: its own enumerable properties (`fields`, in insertion
order, as in JS), plus the data relevant to `instanceof Error` checks:
`isError`, and the non-enumerable `stack` and `message` of an `Error`. -/
structure ObjNode where
  isError : Bool
  stack : Option String
  message : String
  fields : List (String × JsVal)
deriving DecidableEq

instance : Inhabited ObjNode := ⟨⟨false, none, "", []⟩⟩

/-- The object heap: address `a` denotes `h.getD a default`.  In JS every
reference resolves; a dangling address denotes the empty plain object. -/
abbrev Heap := List ObjNode

/-- A plain (non-Error) object node. -/
def mkObj (fields : List (String × JsVal)) : ObjNode := ⟨false, none, "", fields⟩

/-- Own enumerable properties of a JS object, e.g. a logger context:
an association list in property insertion order. -/
abbrev Ctx := List (String × JsVal)

/-- Property read `obj.k`: `undefined` when the key is absent. -/
def getKey : Ctx → String → JsVal
  | [], _ => .undefined
  | (k1, v) :: rest, k => if k1 = k then v else getKey rest k

/-- Key existence (`Object.keys(obj).includes(k)`): a key bound to
`undefined` still exists. -/
def hasKey : Ctx → String → Bool
  | [], _ => false
  | (k1, _) :: rest, k => k1 == k || hasKey rest k

/-- Property write `obj.k = v` / the effect of a later entry in an object
literal: an existing key keeps its position and gets the new value, a new key
is appended (JS property order semantics). -/
def setKey : Ctx → String → JsVal → Ctx
  | [], k, v => [(k, v)]
  | (k1, v1) :: rest, k, v =>
    if k1 = k then (k1, v) :: rest else (k1, v1) :: setKey rest k v

/-- `delete obj.k`. -/
def delKey (ctx : Ctx) (k : String) : Ctx := ctx.filter (fun p => p.1 != k)

/-- Spread-merge `\x7b ...base, ...overlay \x7d`: overlay entries written
left to right on top of a copy of `base`. -/
def spread (base overlay : Ctx) : Ctx :=
  overlay.foldl (fun acc kv => setKey acc kv.1 kv.2) base

/-- JS truthiness of a value (`undefined`, `null`, `false`, `0`, `""` and
`0n` are falsy; every object is truthy). -/
def truthy : JsVal → Bool
  | .undefined => false
  | .null => false
  | .bool b => b
  | .num n => n != 0
  | .str s => s != ""
  | .ref _ => true
  | .bigintV n => n != 0

/-- String coercion used by template literals. -/
def jsToString : JsVal → String
  | .undefined => "undefined"
  | .null => "null"
  | .bool b => cond b "true" "false"
  | .num n => toString n
  | .str s => s
  | .ref _ => "[object Object]"
  | .bigintV n => toString n

/-- `Object.keys(v)`: the own enumerable keys.  For a string, its indices
(as in JS); for other primitives, none. -/
def objKeys (h : Heap) : JsVal → List String
  | .ref a => ((h.getD a default).fields).map Prod.fst
  | .str s => (List.range s.length).map (fun i => toString i)
  | _ => []

/-- Property read `v.k` through the heap. -/
def getField (h : Heap) (v : JsVal) (k : String) : JsVal :=
  match v with
  | .ref a => getKey (h.getD a default).fields k
  | _ => .undefined

/-- `v instanceof Error`. -/
def isErrorVal (h : Heap) : JsVal → Bool
  | .ref a => (h.getD a default).isError
  | _ => false

/-- `e.stack || e.message` for an Error value (`undefined` or empty stack
falls back to the message). -/
def stackOrMessage (h : Heap) : JsVal → String
  | .ref a =>
    let node := h.getD a default
    match node.stack with
    | some s => if s = "" then node.message else s
    | none => node.message
  | _ => ""

/-- Spread of an arbitrary value into an object literal `\x7b ...v \x7d`:
objects contribute their own enumerable fields, strings their indexed
characters, other primitives nothing. -/
def spreadFields (h : Heap) : JsVal → List (String × JsVal)
  | .ref a => (h.getD a default).fields
  | .str s => s.data.enum.map (fun p => (toString p.1, JsVal.str (String.singleton p.2)))
  | _ => []

/-- Hexadecimal digit for JSON control-character escapes. -/
def hexDigit (n : Nat) : Char :=
  if n < 10 then Char.ofNat (48 + n) else Char.ofNat (87 + n)

/-- JSON escaping of a single character, as `JSON.stringify` does. -/
def jsQuoteChar (c : Char) : String :=
  if c = '"' then "\\\""
  else if c = '\\' then "\\\\"
  else if c = '\n' then "\\n"
  else if c = '\r' then "\\r"
  else if c = '\t' then "\\t"
  else if c.toNat = 8 then "\\b"
  else if c.toNat = 12 then "\\f"
  else if c.toNat < 32 then "\\u00" ++ String.mk [hexDigit (c.toNat / 16), hexDigit (c.toNat % 16)]
  else String.singleton c

/-- JSON string literal for `s`. -/
def jsQuote (s : String) : String :=
  "\"" ++ String.join (s.data.map jsQuoteChar) ++ "\""

/-- Result of a `JSON.stringify` step: a produced string (`none` encodes the
JS `undefined` result, whose key is dropped), a thrown `TypeError`, or fuel
exhaustion (shown below never to occur at the fuel bound actually used). -/
inductive SRes (α : Type) where
  | ok (val : α)
  | thrown (msg : String)
  | fuelOut
deriving DecidableEq

/-- Indentation produced by `JSON.stringify(_, _, 2)` at nesting depth `d`. -/
def indentStr (d : Nat) : String := String.mk (List.replicate (2 * d) ' ')

/-- Join pretty-printed `"key": value` entries, one per line. -/
def joinEntries (ind : String) : List String → String
  | [] => ""
  | [e] => ind ++ e
  | e :: rest => ind ++ e ++ ",\n" ++ joinEntries ind rest

/-- Render an object from its entry strings with 2-space pretty-printing. -/
def renderObj (depth : Nat) (entries : List String) : String :=
  match entries with
  | [] => "\x7b\x7d"
  | _ => "\x7b\n" ++ joinEntries (indentStr (depth + 1)) entries ++ "\n" ++ indentStr depth ++ "\x7d"

/-- One layer of serializing the fields of an object, threading the
`seen` set (the replacer closure state) left to right; `recur` serializes a
single field value. -/
def strFieldsGo (recur : List Nat → Nat → JsVal → SRes (Option String) × List Nat)
    (depth : Nat) : List Nat → List (String × JsVal) → SRes (List String) × List Nat
  | seen, [] => (.ok [], seen)
  | seen, (k, v) :: rest =>
    match recur seen depth v with
    | (.ok none, seen1) => strFieldsGo recur depth seen1 rest
    | (.ok (some sv), seen1) =>
      match strFieldsGo recur depth seen1 rest with
      | (.ok entries, seen2) => (.ok ((jsQuote k ++ ": " ++ sv) :: entries), seen2)
      | (.thrown m, seen2) => (.thrown m, seen2)
      | (.fuelOut, seen2) => (.fuelOut, seen2)
    | (.thrown m, seen1) => (.thrown m, seen1)
    | (.fuelOut, seen1) => (.fuelOut, seen1)

/-- One layer of `JSON.stringify` with the logger replacer: an already-seen
object reference is replaced by the string `[Circular]`; an unseen one is
added to `seen` and serialized from its fields; a BigInt throws. -/
def strValF (h : Heap) (recur : List Nat → Nat → JsVal → SRes (Option String) × List Nat)
    (seen : List Nat) (depth : Nat) : JsVal → SRes (Option String) × List Nat
  | .undefined => (.ok none, seen)
  | .null => (.ok (some "null"), seen)
  | .bool b => (.ok (some (cond b "true" "false")), seen)
  | .num n => (.ok (some (toString n)), seen)
  | .str s => (.ok (some (jsQuote s)), seen)
  | .bigintV _ => (.thrown "TypeError: Do not know how to serialize a BigInt", seen)
  | .ref a =>
    if a ∈ seen then (.ok (some (jsQuote "[Circular]")), seen)
    else
      match strFieldsGo recur (depth + 1) (a :: seen) (h.getD a default).fields with
      | (.ok entries, seen1) => (.ok (some (renderObj depth entries)), seen1)
      | (.thrown m, seen1) => (.thrown m, seen1)
      | (.fuelOut, seen1) => (.fuelOut, seen1)

/-- Fuel-indexed serializer: fuel is consumed once per call. -/
def strVal (h : Heap) : Nat → List Nat → Nat → JsVal → SRes (Option String) × List Nat
  | 0, seen, _, _ => (.fuelOut, seen)
  | fuel + 1, seen, depth, v => strValF h (strVal h fuel) seen depth v

/-- `JSON.stringify(v, circularReplacer, 2)` run with sufficient fuel
(`heap size + 1`; sufficiency is proved below). -/
def jsonStringify (h : Heap) (v : JsVal) : SRes (Option String) × List Nat :=
  strVal h (h.length + 1) [] 0 v

/-- `formatDebugObject` from `src/index.ts`: empty or falsy input gives no
payload; an Error (or an `error` field holding an Error) gives its stack;
otherwise the JSON pretty-print, with a thrown serialization error caught and
turned into a bracketed diagnostic. -/
def formatDebugObject (h : Heap) (obj : JsVal) : String :=
  if truthy obj = false ∨ (objKeys h obj).length = 0 then ""
  else if isErrorVal h obj then "\n" ++ stackOrMessage h obj
  else if isErrorVal h (getField h obj "error") then "\n" ++ stackOrMessage h (getField h obj "error")
  else
    match jsonStringify h obj with
    | (.ok (some s), _) => "\n" ++ s
    | (.ok none, _) => "\nundefined"
    | (.thrown m, _) => "\n[Unable to stringify object: " ++ m ++ "]"
    | (.fuelOut, _) => ""

/-- The four log levels, `debug < info < warn < error`. -/
inductive LogLevel where
  | debug
  | info
  | warn
  | error
deriving DecidableEq

/-- `LEVEL_VALUES`: the ordinal of each level. -/
def LEVEL_VALUES : LogLevel → Nat
  | .debug => 0
  | .info => 1
  | .warn => 2
  | .error => 3

/-- `LEVEL_COLORS`: the ANSI color for each level label. -/
def LEVEL_COLORS : LogLevel → String
  | .debug => "\x1b[90m"
  | .info => "\x1b[34m"
  | .warn => "\x1b[33m"
  | .error => "\x1b[31m"

/-- The lower-case name of a level. -/
def levelName : LogLevel → String
  | .debug => "debug"
  | .info => "info"
  | .warn => "warn"
  | .error => "error"

/-- `String.prototype.toLowerCase` (ASCII range, which covers every string
compared against the level names). -/
def toLowerCase (s : String) : String :=
  String.mk (s.data.map (fun c => if 'A' ≤ c ∧ c ≤ 'Z' then Char.ofNat (c.toNat + 32) else c))

/-- `String.prototype.toUpperCase` (ASCII range). -/
def toUpperCase (s : String) : String :=
  String.mk (s.data.map (fun c => if 'a' ≤ c ∧ c ≤ 'z' then Char.ofNat (c.toNat - 32) else c))

/-- The own property names of `Object.prototype` in Node: a bracket lookup on
a plain object literal such as `LEVEL_VALUES` finds these through the
prototype chain, so `LEVEL_VALUES[k] !== undefined` also holds for them. -/
def objectPrototypeKeys : List String :=
  ["constructor", "__defineGetter__", "__defineSetter__", "hasOwnProperty",
   "__lookupGetter__", "__lookupSetter__", "isPrototypeOf",
   "propertyIsEnumerable", "toString", "valueOf", "__proto__", "toLocaleString"]

/-- The result of the JS property read `LEVEL_VALUES[s]`: the ordinal for the
four own keys; for an `Object.prototype` key an inherited function/object
value, which is not `undefined` but also not a number; `undefined` otherwise. -/
inductive LevelLookup where
  | num (n : Nat)
  | protoObj
  | undefinedV
deriving DecidableEq

/-- The JS lookup `LEVEL_VALUES[s]`. -/
def levelValuesLookup (s : String) : LevelLookup :=
  if s = "debug" then .num 0
  else if s = "info" then .num 1
  else if s = "warn" then .num 2
  else if s = "error" then .num 3
  else if s ∈ objectPrototypeKeys then .protoObj
  else .undefinedV

/-- `getLogLevel`: resolve `process.env.LOG_LEVEL` (modelled as the explicit
argument `env`; `none` is an unset variable).  A falsy value (unset or empty)
is replaced by `"info"`, the result is lower-cased, and kept whenever
`LEVEL_VALUES[level] !== undefined` — which a string that lower-cases to an
`Object.prototype` key also passes — otherwise `"info"`.  The runtime value
is the string itself (the TS `LogLevel` cast does not restrict it). -/
def getLogLevel (env : Option String) : String :=
  let raw := env.getD ""
  let level := toLowerCase (if raw = "" then "info" else raw)
  if levelValuesLookup level ≠ LevelLookup.undefinedV then level else "info"

/-- JS `a >= b` where `a` is a number and `b` is a looked-up value: comparing
against a non-number coerces to `NaN` and is false. -/
def jsGE (a : Nat) : LevelLookup → Bool
  | .num b => b ≤ a
  | _ => false

/-- `shouldLog`: `LEVEL_VALUES[level] >= LEVEL_VALUES[configuredLevel]`.
The left side is the ordinal of the (genuine) level of the call; the right
side is the lookup of the configured string, which for a prototype-chain key
is not a number, making the comparison false at every level. -/
def shouldLog (env : Option String) (level : LogLevel) : Bool :=
  jsGE (LEVEL_VALUES level) (levelValuesLookup (getLogLevel env))

/-- Two-complement wrap of an integer to 32 bits, as JS bitwise operators
apply to their operands and result. -/
def toInt32 (n : Int) : Int := (n + 2 ^ 31) % 2 ^ 32 - 2 ^ 31

/-- `getModuleColor`: the string hash
`hash = charCode + ((hash << 5) - hash)` folded over the module name
(`<<` works on 32-bit integers, the rest in exact arithmetic), then
`Math.abs(hash % 360)` (JS `%` truncates toward zero). -/
def getModuleColor (moduleName : String) : Nat :=
  let hash := moduleName.data.foldl
    (fun hash c => (c.toNat : Int) + (toInt32 (toInt32 hash * 32) - hash)) 0
  (hash.tmod 360).natAbs

/-- The wall-clock reading taken by `formatTime` via `new Date()`: the fields
the formatter extracts.  `month0` is zero-based as `Date.getMonth()` is. -/
structure JsDate where
  date : Nat
  month0 : Nat
  hours : Nat
  minutes : Nat
  seconds : Nat
  ms : Nat
deriving DecidableEq

/-- `n.toString().padStart(len, c)`. -/
def padStart (s : String) (len : Nat) (c : Char) : String :=
  String.mk (List.replicate (len - s.length) c) ++ s

/-- `String.prototype.padEnd` with a space. -/
def padEnd (s : String) (len : Nat) : String :=
  s ++ String.mk (List.replicate (len - s.length) ' ')

/-- A number zero-padded to (at least) two digits. -/
def pad2 (n : Nat) : String := padStart (toString n) 2 '0'

/-- A number zero-padded to (at least) three digits. -/
def pad3 (n : Nat) : String := padStart (toString n) 3 '0'

/-- The bracketed core of the timestamp: month first, then day of month, then
the time of day: `[MM/DD HH:MM:SS.mmm]`. -/
def timestampCore (now : JsDate) : String :=
  "[" ++ pad2 (now.month0 + 1) ++ "/" ++ pad2 now.date ++ " " ++ pad2 now.hours ++ ":"
    ++ pad2 now.minutes ++ ":" ++ pad2 now.seconds ++ "." ++ pad3 now.ms ++ "]"

/-- `formatTime`: the timestamp of the current instant, wrapped in the dim
styling marker. -/
def formatTime (now : JsDate) : String :=
  "\x1b[2m" ++ timestampCore now ++ "\x1b[0m"

/-- The `userPart` of the rendered line: present iff `context.userId` is
truthy. -/
def userPart (context : Ctx) : String :=
  if truthy (getKey context "userId") then
    " \x1b[35m[" ++ jsToString (getKey context "userId") ++ "]\x1b[0m"
  else ""

/-- The inner object `\x7b ...context, module: undefined \x7d` built by the
error branch of `formatLogMessage`. -/
def errorInnerCtx (context : Ctx) : Ctx := setKey context "module" JsVal.undefined

/-- The fields of `errorData = \x7b ...data, context: \x7b ...context, module: undefined \x7d \x7d`;
the inner context object is allocated at address `h.length`. -/
def errorDataFields (h : Heap) (context : Ctx) (data : JsVal) : Ctx :=
  setKey (spreadFields h data) "context" (JsVal.ref h.length)

/-- The heap after the error branch allocates the inner context object and
`errorData`. -/
def errorHeap (h : Heap) (context : Ctx) (data : JsVal) : Heap :=
  h ++ [mkObj (errorInnerCtx context)] ++ [mkObj (errorDataFields h context data)]

/-- The reference to the freshly allocated `errorData` object. -/
def errorDataRef (h : Heap) : JsVal := JsVal.ref (h.length + 1)

/-- The `debugData` payload appended by `formatLogMessage`.  At `debug` level
the context (minus `module`) and any truthy data are each appended; at `error`
level the combined `errorData` object is always serialized (its `context` key
makes it nonempty); at other levels only truthy data is serialized.  Fresh JS
object literals are modelled by allocating at the end of the heap. -/
def debugDataFor (h : Heap) (level : LogLevel) (context : Ctx) (data : JsVal) : String :=
  match level with
  | .debug =>
    let contextData := delKey context "module"
    let h1 := h ++ [mkObj contextData]
    (if 0 < contextData.length then formatDebugObject h1 (JsVal.ref h.length) else "")
      ++ (if truthy data then formatDebugObject h1 data else "")
  | .error =>
    if 0 < (errorDataFields h context data).length then
      formatDebugObject (errorHeap h context data) (errorDataRef h)
    else ""
  | _ => if truthy data then formatDebugObject h data else ""

/-- Everything `formatLogMessage` emits after the timestamp; none of it
depends on the clock.  `chan` is the RGB channel function
`deg => Math.round(127 + 127 * Math.sin(deg * PI / 180))` of the source: its
values are IEEE-754 double-precision arithmetic (for instance the double
sine of 30 degrees is 0.49999999999999994, so the rounding differs from
exact real arithmetic), which a shallow embedding cannot reproduce exactly;
it is therefore taken as an explicit function parameter, and every property
proved below holds for every channel function, the program's included. -/
def renderRest (chan : Nat → Int) (h : Heap) (level : LogLevel) (context : Ctx)
    (message : String) (data : JsVal) : String :=
  let moduleStr := if truthy (getKey context "module")
    then jsToString (getKey context "module") else "app"
  let moduleHue := getModuleColor moduleStr
  let moduleColor := "\x1b[38;2;" ++ toString (chan moduleHue) ++ ";"
    ++ toString (chan (moduleHue + 120)) ++ ";" ++ toString (chan (moduleHue + 240)) ++ "m"
  let levelStr := padEnd (LEVEL_COLORS level ++ toUpperCase (levelName level) ++ " \x1b[0m") 10
  " " ++ levelStr ++ moduleColor ++ "[" ++ moduleStr ++ "]\x1b[0m" ++ userPart context
    ++ " " ++ message ++ debugDataFor h level context data

/-- `formatLogMessage`: the full rendered line, the timestamp of the instant
`now` (read via `new Date()` inside `formatTime`) followed by the
clock-independent remainder. -/
def formatLogMessage (chan : Nat → Int) (h : Heap) (now : JsDate) (level : LogLevel)
    (context : Ctx) (message : String) (data : JsVal) : String :=
  formatTime now ++ renderRest chan h level context message data

/-- The output sinks used by `Logger.log` (`console.log` and friends). -/
inductive Sink where
  | consoleLog
  | consoleError
  | consoleWarn
  | consoleDebug
deriving DecidableEq

/-- The sink chosen for each level (the `switch` in `Logger.log`; the
`default` branch routes `info` to `console.log`). -/
def sinkFor : LogLevel → Sink
  | .error => .consoleError
  | .warn => .consoleWarn
  | .debug => .consoleDebug
  | .info => .consoleLog

/-- The `Logger` class: its mutable `context` field. -/
structure Logger where
  context : Ctx
deriving DecidableEq

/-- `new Logger(module)`. -/
def Logger.new (moduleName : String) : Logger :=
  ⟨[("module", JsVal.str moduleName)]⟩

/-- `Logger.log`: the sink writes produced by one leveled call.  A disabled
level returns immediately with no write; an enabled one performs exactly one
write of the formatted line to the level-appropriate sink. -/
def Logger.log (chan : Nat → Int) (env : Option String) (h : Heap) (now : JsDate)
    (lg : Logger) (level : LogLevel) (message : String) (data : JsVal) :
    List (Sink × String) :=
  if shouldLog env level = false then []
  else [(sinkFor level, formatLogMessage chan h now level lg.context message data)]

/-- `setUserId` on a context: `\x7b ...context, userId: userId || undefined \x7d`
(a null or empty id is falsy, so the key is written with the value
`undefined`). -/
def setUserIdCtx (ctx : Ctx) (userId : Option String) : Ctx :=
  setKey ctx "userId"
    (match userId with
     | some s => if s = "" then JsVal.undefined else JsVal.str s
     | none => JsVal.undefined)

/-- `Logger.setUserId` (its effect on the logger it is called on). -/
def Logger.setUserId (lg : Logger) (userId : Option String) : Logger :=
  ⟨setUserIdCtx lg.context userId⟩

/-- The context of a child logger: `\x7b ...parent, ...options \x7d` (the
context set in `new Logger(options.module)` is immediately overwritten). -/
def childCtx (parent options : Ctx) : Ctx := spread parent options

/-- `Logger.child`. -/
def Logger.child (lg : Logger) (options : Ctx) : Logger :=
  ⟨childCtx lg.context options⟩

/-- A store of logger instances, indexed by identity: models the JS heap of
`Logger` objects, each holding its own `context`.  Both `setUserId` and
`child` build a fresh context object by spreading, so an update to one entry
never changes another. -/
abbrev Store := List Ctx

/-- `setUserId` called on the logger with identity `i`. -/
def storeSetUserId (st : Store) (i : Nat) (userId : Option String) : Store :=
  st.set i (setUserIdCtx (st.getD i []) userId)

/-- `child` called on the logger with identity `i`: allocates a new logger
whose context is the copied overlay, and returns its identity. -/
def storeChild (st : Store) (i : Nat) (options : Ctx) : Store × Nat :=
  (st ++ [childCtx (st.getD i []) options], st.length)

/-- Does the character list start with `pat`? -/
def charsStartWith : List Char → List Char → Bool
  | [], _ => true
  | _ :: _, [] => false
  | p :: ps, c :: cs => p == c && charsStartWith ps cs

/-- Does the character list contain `pat` as a contiguous run? -/
def charsContain (pat : List Char) : List Char → Bool
  | [] => charsStartWith pat []
  | c :: cs => charsStartWith pat (c :: cs) || charsContain pat cs

/-- Substring test (used to state properties of rendered lines). -/
def strContains (s pat : String) : Bool := charsContain pat.data s.data

/-- A fixed sample clock reading: 14 March, 10:20:30.123. -/
def sampleDate : JsDate := ⟨14, 2, 10, 20, 30, 123⟩

/-- A one-object heap whose object references itself (a cyclic graph). -/
def cycHeap : Heap := [mkObj [("self", JsVal.ref 0)]]

/-- A one-object heap whose object holds a BigInt (non-serializable). -/
def bigHeap : Heap := [mkObj [("n", JsVal.bigintV 1)]]

/-- Heap for the error-payload counterexample: address 0 is an Error carrying
a stack trace, address 1 is the logged `data` object `\x7b error: <that Error> \x7d`. -/
def errHeapC3 : Heap :=
  [⟨true, some "Error: boom\n    at x", "boom", []⟩, mkObj [("error", JsVal.ref 0)]]

/-- Context for the error-payload counterexample. -/
def ctxC3 : Ctx := [("module", JsVal.str "auth"), ("userId", JsVal.str "u1")]

/-! ## Association-list lemmas -/

theorem getKey_setKey (ctx : Ctx) (k0 : String) (v : JsVal) (k : String) :
    getKey (setKey ctx k0 v) k = if k0 = k then v else getKey ctx k := by
  induction ctx with
  | nil => simp [setKey, getKey]
  | cons kv rest ih =>
    obtain ⟨k1, v1⟩ := kv
    by_cases h10 : k1 = k0
    · subst h10
      by_cases h1k : k1 = k <;> simp [setKey, getKey, h1k]
    · by_cases h1k : k1 = k
      · subst h1k
        have : ¬ k0 = k1 := fun h => h10 h.symm
        simp [setKey, getKey, h10, this]
      · simp [setKey, getKey, h10, h1k, ih]

theorem hasKey_setKey (ctx : Ctx) (k0 : String) (v : JsVal) (k : String) :
    hasKey (setKey ctx k0 v) k = (k0 == k || hasKey ctx k) := by
  induction ctx with
  | nil => simp [setKey, hasKey]
  | cons kv rest ih =>
    obtain ⟨k1, v1⟩ := kv
    by_cases h10 : k1 = k0
    · subst h10
      simp only [setKey, if_pos rfl, hasKey]
      cases (k1 == k) <;> simp
    · simp only [setKey, if_neg h10, hasKey, ih]
      cases (k1 == k) <;> cases (k0 == k) <;> simp

theorem hasKey_iff_mem (ctx : Ctx) (k : String) :
    hasKey ctx k = true ↔ k ∈ ctx.map Prod.fst := by
  induction ctx with
  | nil => simp [hasKey]
  | cons kv rest ih =>
    obtain ⟨k1, v1⟩ := kv
    simp only [hasKey, List.map_cons, List.mem_cons, Bool.or_eq_true, beq_iff_eq, ih]
    constructor
    · rintro (h | h)
      · exact Or.inl h.symm
      · exact Or.inr h
    · rintro (h | h)
      · exact Or.inl h.symm
      · exact Or.inr h

theorem setKey_ne_nil (ctx : Ctx) (k : String) (v : JsVal) : setKey ctx k v ≠ [] := by
  cases ctx with
  | nil => simp [setKey]
  | cons kv rest =>
    obtain ⟨k1, v1⟩ := kv
    by_cases h : k1 = k <;> simp [setKey, h]

theorem getKey_spread (base overlay : Ctx) (hnd : (overlay.map Prod.fst).Nodup) (k : String) :
    getKey (spread base overlay) k =
      if hasKey overlay k then getKey overlay k else getKey base k := by
  induction overlay generalizing base with
  | nil => simp [spread, hasKey]
  | cons kv rest ih =>
    obtain ⟨k0, v0⟩ := kv
    have hnd' := hnd
    rw [List.map_cons, List.nodup_cons] at hnd'
    obtain ⟨hk0, hrest⟩ := hnd'
    have hstep : spread base ((k0, v0) :: rest) = spread (setKey base k0 v0) rest := by
      simp [spread]
    rw [hstep, ih _ hrest]
    by_cases hmem : hasKey rest k = true
    · have hk0k : ¬ k0 = k := by
        intro he
        subst he
        exact hk0 ((hasKey_iff_mem rest k0).mp hmem)
      simp [hasKey, hmem, getKey, hk0k]
    · rw [getKey_setKey]
      by_cases hk0k : k0 = k
      · subst hk0k
        simp [hasKey, getKey, Bool.eq_false_iff.mpr hmem]
      · simp [hasKey, hk0k, getKey, Bool.eq_false_iff.mpr hmem]

/-! ## Termination of the serializer: the fuel bound is sufficient -/

/-- Number of heap addresses the replacer has not yet visited. -/
def unvisited (h : Heap) (seen : List Nat) : Nat :=
  ((List.range h.length).filter (fun a => decide (¬ a ∈ seen))).length

theorem unvisited_mono (h : Heap) {s t : List Nat} (hst : s ⊆ t) :
    unvisited h t ≤ unvisited h s := by
  unfold unvisited
  refine List.Sublist.length_le (List.monotone_filter_right _ ?_)
  intro a ha
  simp only [decide_eq_true_eq] at ha ⊢
  exact fun hmem => ha (hst hmem)

theorem filter_cons_length_lt {seen : List Nat} {a : Nat} (l : List Nat)
    (hal : a ∈ l) (hna : a ∉ seen) :
    (l.filter (fun x => decide (¬ x ∈ a :: seen))).length
      < (l.filter (fun x => decide (¬ x ∈ seen))).length := by
  induction l with
  | nil => cases hal
  | cons b bs ih =>
    by_cases hba : b = a
    · subst hba
      have h1 : (decide (¬ b ∈ b :: seen)) = false := by simp
      have h2 : (decide (¬ b ∈ seen)) = true := by simpa using hna
      rw [List.filter_cons, h1, List.filter_cons, h2]
      have hmono : (bs.filter (fun x => decide (¬ x ∈ b :: seen))).length
          ≤ (bs.filter (fun x => decide (¬ x ∈ seen))).length := by
        refine List.Sublist.length_le (List.monotone_filter_right _ ?_)
        intro x hx
        simp only [decide_eq_true_eq, List.mem_cons] at hx ⊢
        exact fun hmem => hx (Or.inr hmem)
      simpa using Nat.lt_succ_of_le hmono
    · have habs : a ∈ bs := by
        rcases List.mem_cons.mp hal with h | h
        · exact absurd h.symm hba
        · exact h
      have hsame : (decide (¬ b ∈ a :: seen)) = (decide (¬ b ∈ seen)) := by
        simp only [List.mem_cons, decide_not]
        congr 1
        simp [hba]
      rw [List.filter_cons, List.filter_cons, hsame]
      cases hb : (decide (¬ b ∈ seen))
      · simpa using ih habs
      · simpa using Nat.succ_lt_succ (ih habs)

theorem unvisited_cons_lt (h : Heap) {seen : List Nat} {a : Nat}
    (ha : a < h.length) (hna : a ∉ seen) :
    unvisited h (a :: seen) < unvisited h seen :=
  filter_cons_length_lt (List.range h.length) (List.mem_range.mpr ha) hna

theorem strFieldsGo_seen_subset
    (recur : List Nat → Nat → JsVal → SRes (Option String) × List Nat)
    (hrec : ∀ seen depth v, seen ⊆ (recur seen depth v).2) (depth : Nat) :
    ∀ (fs : List (String × JsVal)) (seen : List Nat),
      seen ⊆ (strFieldsGo recur depth seen fs).2 := by
  intro fs
  induction fs with
  | nil => intro seen; simp [strFieldsGo]
  | cons kv rest ih =>
    intro seen
    obtain ⟨k, v⟩ := kv
    have h1 := hrec seen depth v
    rcases hr : recur seen depth v with ⟨res, seen1⟩
    rw [hr] at h1
    cases res with
    | ok o =>
      cases o with
      | none =>
        have h2 := ih seen1
        simpa [strFieldsGo, hr] using h1.trans h2
      | some sv =>
        have h2 := ih seen1
        rcases hf : strFieldsGo recur depth seen1 rest with ⟨res2, seen2⟩
        rw [hf] at h2
        cases res2 <;> simpa [strFieldsGo, hr, hf] using h1.trans h2
    | thrown m => simpa [strFieldsGo, hr] using h1
    | fuelOut => simpa [strFieldsGo, hr] using h1

theorem strValF_seen_subset (h : Heap)
    (recur : List Nat → Nat → JsVal → SRes (Option String) × List Nat)
    (hrec : ∀ seen depth v, seen ⊆ (recur seen depth v).2) :
    ∀ (seen : List Nat) (depth : Nat) (v : JsVal),
      seen ⊆ (strValF h recur seen depth v).2 := by
  intro seen depth v
  cases v with
  | ref a =>
    by_cases ha : a ∈ seen
    · simp [strValF, ha]
    · have hsub : seen ⊆ a :: seen := List.subset_cons_self a seen
      have h2 := strFieldsGo_seen_subset recur hrec (depth + 1)
        (h.getD a default).fields (a :: seen)
      rcases hf : strFieldsGo recur (depth + 1) (a :: seen) (h.getD a default).fields
        with ⟨res, seen1⟩
      rw [hf] at h2
      simp only [strValF]
      rw [if_neg ha, hf]
      cases res <;> exact hsub.trans h2
  | undefined => simp [strValF]
  | null => simp [strValF]
  | bool b => simp [strValF]
  | num n => simp [strValF]
  | str s => simp [strValF]
  | bigintV n => simp [strValF]

theorem strVal_seen_subset (h : Heap) :
    ∀ (fuel : Nat) (seen : List Nat) (depth : Nat) (v : JsVal),
      seen ⊆ (strVal h fuel seen depth v).2 := by
  intro fuel
  induction fuel with
  | zero => intro seen depth v; simp [strVal]
  | succ f ih =>
    intro seen depth v
    exact strValF_seen_subset h (strVal h f) (fun s d w => ih s d w) seen depth v

theorem strFieldsGo_ne_fuelOut (h : Heap)
    (recur : List Nat → Nat → JsVal → SRes (Option String) × List Nat) (F : Nat)
    (hsub : ∀ seen depth v, seen ⊆ (recur seen depth v).2)
    (hrec : ∀ seen depth v, unvisited h seen < F → (recur seen depth v).1 ≠ SRes.fuelOut)
    (depth : Nat) :
    ∀ (fs : List (String × JsVal)) (seen : List Nat), unvisited h seen < F →
      (strFieldsGo recur depth seen fs).1 ≠ SRes.fuelOut := by
  intro fs
  induction fs with
  | nil => intro seen hlt; simp [strFieldsGo]
  | cons kv rest ih =>
    intro seen hlt
    obtain ⟨k, v⟩ := kv
    have h1 := hrec seen depth v hlt
    have hs1 := hsub seen depth v
    rcases hr : recur seen depth v with ⟨res, seen1⟩
    rw [hr] at h1 hs1
    have hlt1 : unvisited h seen1 < F :=
      Nat.lt_of_le_of_lt (unvisited_mono h hs1) hlt
    cases res with
    | ok o =>
      cases o with
      | none => simpa [strFieldsGo, hr] using ih seen1 hlt1
      | some sv =>
        have h2 := ih seen1 hlt1
        rcases hf : strFieldsGo recur depth seen1 rest with ⟨res2, seen2⟩
        rw [hf] at h2
        cases res2 with
        | ok entries => simp [strFieldsGo, hr, hf]
        | thrown m => simp [strFieldsGo, hr, hf]
        | fuelOut => exact absurd rfl h2
    | thrown m => simp [strFieldsGo, hr]
    | fuelOut => exact absurd rfl h1

theorem strVal_ne_fuelOut (h : Heap) :
    ∀ (fuel : Nat) (seen : List Nat) (depth : Nat) (v : JsVal),
      unvisited h seen < fuel → (strVal h fuel seen depth v).1 ≠ SRes.fuelOut := by
  intro fuel
  induction fuel with
  | zero => intro seen depth v hlt; omega
  | succ F ih =>
    intro seen depth v hlt
    show (strValF h (strVal h F) seen depth v).1 ≠ SRes.fuelOut
    cases v with
    | ref a =>
      by_cases ha : a ∈ seen
      · simp [strValF, ha]
      · by_cases hlen : a < h.length
        · have hlt' : unvisited h (a :: seen) < F := by
            have := unvisited_cons_lt h hlen ha
            omega
          have hfe := strFieldsGo_ne_fuelOut h (strVal h F) F
            (fun s d w => strVal_seen_subset h F s d w)
            (fun s d w hw => ih s d w hw) (depth + 1)
            (h.getD a default).fields (a :: seen) hlt'
          rcases hf : strFieldsGo (strVal h F) (depth + 1) (a :: seen)
            (h.getD a default).fields with ⟨res, seen1⟩
          rw [hf] at hfe
          simp only [strValF]
          rw [if_neg ha, hf]
          cases res with
          | ok entries => simp
          | thrown m => simp
          | fuelOut => exact absurd rfl hfe
        · have hfields : (h.getD a default).fields = [] := by
            rw [List.getD_eq_getElem?_getD, List.getElem?_eq_none (by omega)]
            rfl
          simp only [strValF]
          rw [if_neg ha, hfields]
          simp [strFieldsGo]
    | undefined => simp [strValF]
    | null => simp [strValF]
    | bool b => simp [strValF]
    | num n => simp [strValF]
    | str s => simp [strValF]
    | bigintV n => simp [strValF]

theorem unvisited_nil (h : Heap) : unvisited h [] = h.length := by
  unfold unvisited
  rw [List.filter_eq_self.mpr (by intro a ha; simp)]
  exact List.length_range h.length

theorem jsonStringify_ne_fuelOut (h : Heap) (v : JsVal) :
    (jsonStringify h v).1 ≠ SRes.fuelOut := by
  apply strVal_ne_fuelOut
  rw [unvisited_nil]
  omega

/-! ## List access lemmas -/

theorem getD_append_at (l : List ObjNode) (x y : ObjNode) :
    (l ++ [x] ++ [y]).getD l.length default = x := by
  rw [List.getD_eq_getElem?_getD, List.append_assoc,
    List.getElem?_append_right (Nat.le_refl l.length)]
  simp

theorem getD_append_at_succ (l : List ObjNode) (x y : ObjNode) :
    (l ++ [x] ++ [y]).getD (l.length + 1) default = y := by
  rw [List.getD_eq_getElem?_getD, List.append_assoc,
    List.getElem?_append_right (Nat.le_succ_of_le (Nat.le_refl l.length))]
  simp

theorem getD_set_ne (l : Store) (i j : Nat) (x : Ctx) (hij : i ≠ j) :
    (l.set i x).getD j [] = l.getD j [] := by
  rw [List.getD_eq_getElem?_getD, List.getD_eq_getElem?_getD, List.getElem?_set_ne hij]

theorem getD_append_singleton (l : Store) (x : Ctx) :
    (l ++ [x]).getD l.length [] = x := by
  rw [List.getD_eq_getElem?_getD, List.getElem?_append_right (Nat.le_refl l.length)]
  simp

/-! ## Padding lemmas -/

theorem string_mk_length (l : List Char) : (String.mk l).length = l.length := rfl

theorem padStart_length (s : String) (len : Nat) (c : Char) (hs : s.length ≤ len) :
    (padStart s len c).length = len := by
  simp only [padStart, String.length_append, string_mk_length, List.length_replicate]
  omega

theorem toString_length_le_two : ∀ n : Nat, n < 100 → (toString n).length ≤ 2 := by decide

theorem toString_length_le_three : ∀ n : Nat, n < 1000 → (toString n).length ≤ 3 := by decide

theorem pad2_length (n : Nat) (hn : n < 100) : (pad2 n).length = 2 :=
  padStart_length _ _ _ (toString_length_le_two n hn)

theorem pad3_length (n : Nat) (hn : n < 1000) : (pad3 n).length = 3 :=
  padStart_length _ _ _ (toString_length_le_three n hn)

/-- Appending the same suffix to different strings keeps them different. -/
theorem append_right_ne (a b r : String) (hab : a ≠ b) : a ++ r ≠ b ++ r := by
  intro he
  apply hab
  apply String.ext
  have hd : a.data ++ r.data = b.data ++ r.data := by
    have h1 := congrArg String.data he
    simpa [String.data_append] using h1
  exact List.append_cancel_right hd

/-- The lookup of a genuine level name is its ordinal. -/
theorem levelValuesLookup_levelName (M : LogLevel) :
    levelValuesLookup (levelName M) = LevelLookup.num (LEVEL_VALUES M) := by
  cases M <;> decide

/-! ## Claim theorems -/

/-- C1: for every level `L` and every configured minimum level `M` (an
environment whose configuration resolves to the level `M`), `shouldLog`
enables `L` iff the ordinal of `L` is at least the ordinal of `M` (in the
order `debug < info < warn < error`); consequently a leveled log call below
the minimum produces no sink write, and one at or above it produces exactly
one write — for every color channel function.  (A configuration that resolves
to an `Object.prototype` key instead of a level is outside the claim and is
settled with C5.) -/
theorem shouldLog_iff_and_write_count (chan : Nat → Int) (env : Option String)
    (L M : LogLevel) (h : Heap) (now : JsDate) (lg : Logger) (msg : String)
    (data : JsVal) (hM : getLogLevel env = levelName M) :
    (shouldLog env L = true ↔ LEVEL_VALUES M ≤ LEVEL_VALUES L)
  ∧ (LEVEL_VALUES L < LEVEL_VALUES M →
      Logger.log chan env h now lg L msg data = [])
  ∧ (LEVEL_VALUES M ≤ LEVEL_VALUES L →
      (Logger.log chan env h now lg L msg data).length = 1) := by
  have hlook : levelValuesLookup (getLogLevel env) = LevelLookup.num (LEVEL_VALUES M) := by
    rw [hM, levelValuesLookup_levelName]
  have hiff : shouldLog env L = true ↔ LEVEL_VALUES M ≤ LEVEL_VALUES L := by
    simp only [shouldLog, hlook, jsGE, decide_eq_true_eq]
  refine ⟨hiff, ?_, ?_⟩
  · intro hlt
    have hfalse : shouldLog env L = false := by
      cases hsl : shouldLog env L
      · rfl
      · exact absurd (hiff.mp hsl) (by omega)
    simp [Logger.log, hfalse]
  · intro hle
    have htrue : shouldLog env L = true := hiff.mpr hle
    simp [Logger.log, htrue]

/-- Witness for C1 with `LOG_LEVEL=warn` (which resolves to the minimum level
`warn`): a debug call writes nothing, an error call writes exactly once. -/
theorem shouldLog_iff_and_write_count_witness :
    getLogLevel (some "warn") = levelName LogLevel.warn
  ∧ (LEVEL_VALUES LogLevel.debug < LEVEL_VALUES LogLevel.warn
      ∧ Logger.log (fun _ => 0) (some "warn") [] sampleDate (Logger.new "app")
          LogLevel.debug "m" JsVal.undefined = [])
  ∧ (LEVEL_VALUES LogLevel.warn ≤ LEVEL_VALUES LogLevel.error
      ∧ (Logger.log (fun _ => 0) (some "warn") [] sampleDate (Logger.new "app")
          LogLevel.error "m" JsVal.undefined).length = 1) :=
  ⟨by decide,
   ⟨by decide, (shouldLog_iff_and_write_count (fun _ => 0) (some "warn") LogLevel.debug
      LogLevel.warn [] sampleDate (Logger.new "app") "m" JsVal.undefined (by decide)).2.1
      (by decide)⟩,
   ⟨by decide, (shouldLog_iff_and_write_count (fun _ => 0) (some "warn") LogLevel.error
      LogLevel.warn [] sampleDate (Logger.new "app") "m" JsVal.undefined (by decide)).2.2
      (by decide)⟩⟩

/-- C2 counterexample: after `setUserId(null)` the `userId` key is still
present in the logger context — bound to the JS `undefined` value — so the
claim that the key is removed entirely (absent afterward) is false. -/
theorem setUserId_null_leaves_key_cex :
    hasKey ((Logger.new "app").setUserId none).context "userId" = true
  ∧ getKey ((Logger.new "app").setUserId none).context "userId" = JsVal.undefined := by
  decide

/-- C2 (amended): `setUserId(null)` writes the `userId` key with the value
`undefined` rather than deleting it: the key remains present (a key-existence
check still sees it), bound to a null-equivalent sentinel.  Truthiness-based
reads and JSON serialization treat it as absent, but a single key-existence
check does not suffice. -/
theorem setUserId_null_binds_undefined (lg : Logger) :
    getKey (lg.setUserId none).context "userId" = JsVal.undefined
  ∧ hasKey (lg.setUserId none).context "userId" = true := by
  constructor
  · simp [Logger.setUserId, setUserIdCtx, getKey_setKey]
  · simp [Logger.setUserId, setUserIdCtx, hasKey_setKey]

/-- C5 counterexample: `"constructor"` is not (case-insensitively) one of the
four level names, yet it does NOT filter like a configured minimum of `info`:
the JS check `LEVEL_VALUES[level] !== undefined` finds the inherited
`Object.prototype.constructor` through the prototype chain, the string
becomes the configured value, and `>=` against its non-numeric lookup is
false, so even an error-level call is dropped, where `info` would allow it. -/
theorem unrecognized_level_not_info_cex :
    (toLowerCase "constructor" ∉ ["debug", "info", "warn", "error"])
  ∧ getLogLevel (some "constructor") = "constructor"
  ∧ shouldLog (some "constructor") LogLevel.error = false
  ∧ shouldLog (some "info") LogLevel.error = true := by
  decide

/-- C5 (amended): level resolution depends only on the lower-cased
configuration string — it is case-insensitive — an absent or empty value
resolves to `"info"`, and a string whose lower-casing makes the
`LEVEL_VALUES` lookup `undefined` filters identically to a configured
minimum of `info`.  But a string that lower-cases to an inherited
`Object.prototype` key (`constructor`, `__proto__`) passes the
`LEVEL_VALUES[level] !== undefined` check through the prototype chain, is
kept as the configured value, and disables logging at every level — it does
not behave like `info`. -/
theorem logLevel_resolution (s : String) :
    (getLogLevel (some s)
      = if levelValuesLookup (toLowerCase s) ≠ LevelLookup.undefinedV
          then toLowerCase s else "info")
  ∧ getLogLevel none = "info"
  ∧ (levelValuesLookup (toLowerCase s) = LevelLookup.undefinedV →
      ∀ L, shouldLog (some s) L = shouldLog (some "info") L)
  ∧ (levelValuesLookup (toLowerCase s) = LevelLookup.protoObj →
      ∀ L, shouldLog (some s) L = false) := by
  have hmain : getLogLevel (some s)
      = if levelValuesLookup (toLowerCase s) ≠ LevelLookup.undefinedV
          then toLowerCase s else "info" := by
    by_cases hs : s = ""
    · subst hs
      decide
    · simp only [getLogLevel, Option.getD_some, if_neg hs]
  refine ⟨hmain, by decide, ?_, ?_⟩
  · intro hp L
    have h1 : getLogLevel (some s) = "info" := by
      rw [hmain, hp]
      simp
    have h2 : getLogLevel (some "info") = "info" := by decide
    simp only [shouldLog, h1, h2]
  · intro hp L
    have h1 : getLogLevel (some s) = toLowerCase s := by
      rw [hmain, if_pos (by rw [hp]; decide)]
    simp only [shouldLog, h1, hp, jsGE]

/-- Witness for C5 (amended): `"verbose"` filters exactly like `"info"`,
while `"CONSTRUCTOR"` (case-insensitively a prototype key) disables even
error-level logging. -/
theorem logLevel_resolution_witness :
    (levelValuesLookup (toLowerCase "verbose") = LevelLookup.undefinedV
      ∧ shouldLog (some "verbose") LogLevel.debug = shouldLog (some "info") LogLevel.debug)
  ∧ (levelValuesLookup (toLowerCase "CONSTRUCTOR") = LevelLookup.protoObj
      ∧ shouldLog (some "CONSTRUCTOR") LogLevel.error = false) :=
  ⟨⟨by decide, (logLevel_resolution "verbose").2.2.1 (by decide) LogLevel.debug⟩,
   ⟨by decide, (logLevel_resolution "CONSTRUCTOR").2.2.2 (by decide) LogLevel.error⟩⟩

/-- C6: the child context is the parent context overlaid with the options
record: on a key the options mention, the option value wins; every parent key
not mentioned is preserved unchanged; in particular an un-overridden `userId`
is carried into the child.  (An options record, being a JS object, has
pairwise distinct keys, hence the `Nodup` hypothesis.) -/
theorem child_context_overlay (parent : Logger) (options : Ctx)
    (hmod : hasKey options "module" = true)
    (hnd : (options.map Prod.fst).Nodup) :
    (∀ k, hasKey options k = true →
        getKey (parent.child options).context k = getKey options k)
  ∧ (∀ k, hasKey options k = false →
        getKey (parent.child options).context k = getKey parent.context k)
  ∧ (hasKey options "userId" = false →
      getKey (parent.child options).context "userId" = getKey parent.context "userId") := by
  have hspread : ∀ k, getKey (parent.child options).context k =
      if hasKey options k then getKey options k else getKey parent.context k := by
    intro k
    exact getKey_spread parent.context options hnd k
  refine ⟨?_, ?_, ?_⟩
  · intro k hk
    rw [hspread k, if_pos hk]
  · intro k hk
    rw [hspread k, if_neg (by simp [hk])]
  · intro hk
    rw [hspread "userId", if_neg (by simp [hk])]

/-- Witness for C6: the options override `module`, and the parent `userId`
survives into the child. -/
theorem child_context_overlay_witness :
    getKey ((Logger.mk [("module", JsVal.str "app"), ("userId", JsVal.str "u7")]).child
        [("module", JsVal.str "auth"), ("extra", JsVal.num 1)]).context "module"
      = JsVal.str "auth"
  ∧ getKey ((Logger.mk [("module", JsVal.str "app"), ("userId", JsVal.str "u7")]).child
        [("module", JsVal.str "auth"), ("extra", JsVal.num 1)]).context "userId"
      = JsVal.str "u7" :=
  ⟨((child_context_overlay (Logger.mk [("module", JsVal.str "app"), ("userId", JsVal.str "u7")])
      [("module", JsVal.str "auth"), ("extra", JsVal.num 1)] (by decide) (by decide)).1
      "module" (by decide)).trans (by decide),
   ((child_context_overlay (Logger.mk [("module", JsVal.str "app"), ("userId", JsVal.str "u7")])
      [("module", JsVal.str "auth"), ("extra", JsVal.num 1)] (by decide) (by decide)).2.2
      (by decide)).trans (by decide)⟩

/-- C7: a child copies the parent context at creation time and holds no live
back-reference: in the store of logger instances, a later `setUserId` on the
parent leaves the child entry unchanged, and a `setUserId` on the child
leaves the parent entry unchanged. -/
theorem child_independent_of_parent (st : Store) (p : Nat) (options : Ctx)
    (u u' : Option String) (hp : p < st.length) :
    ((storeSetUserId (storeChild st p options).1 p u).getD (storeChild st p options).2 []
        = (storeChild st p options).1.getD (storeChild st p options).2 [])
  ∧ ((storeSetUserId (storeChild st p options).1 (storeChild st p options).2 u').getD p []
        = (storeChild st p options).1.getD p []) := by
  have hpc : p ≠ st.length := Nat.ne_of_lt hp
  constructor
  · exact getD_set_ne _ p st.length _ hpc
  · exact getD_set_ne _ st.length p _ (Ne.symm hpc)

/-- Witness for C7: a concrete parent and child, each mutation leaving the
other entry untouched. -/
theorem child_independent_of_parent_witness :
    ((storeSetUserId (storeChild [[("module", JsVal.str "app")]] 0
          [("module", JsVal.str "auth")]).1 0 (some "u1")).getD
        (storeChild [[("module", JsVal.str "app")]] 0 [("module", JsVal.str "auth")]).2 []
      = (storeChild [[("module", JsVal.str "app")]] 0
          [("module", JsVal.str "auth")]).1.getD
        (storeChild [[("module", JsVal.str "app")]] 0 [("module", JsVal.str "auth")]).2 [])
  ∧ ((storeSetUserId (storeChild [[("module", JsVal.str "app")]] 0
          [("module", JsVal.str "auth")]).1
        (storeChild [[("module", JsVal.str "app")]] 0 [("module", JsVal.str "auth")]).2
        (some "u2")).getD 0 []
      = (storeChild [[("module", JsVal.str "app")]] 0
          [("module", JsVal.str "auth")]).1.getD 0 []) :=
  child_independent_of_parent [[("module", JsVal.str "app")]] 0
    [("module", JsVal.str "auth")] (some "u1") (some "u2") (by decide)

/-- C8 counterexample: two render calls with identical level, context,
message and data, taken at two different clock instants, produce different
output strings — rendering is not a pure function of those four arguments,
because it reads the wall clock for its timestamp.  The difference is in the
timestamp region: the two instants already make `formatTime` differ (a
channel-free fact), and the full lines, here computed with a concrete sample
channel function, differ accordingly (the amended theorem shows the same for
every channel function). -/
theorem render_depends_on_clock_cex :
    formatTime ⟨14, 2, 10, 20, 30, 123⟩ ≠ formatTime ⟨14, 2, 10, 21, 30, 123⟩
  ∧ formatLogMessage (fun _ => 0) [] ⟨14, 2, 10, 20, 30, 123⟩ LogLevel.info
        [("module", JsVal.str "app")] "hello" JsVal.undefined
      ≠ formatLogMessage (fun _ => 0) [] ⟨14, 2, 10, 21, 30, 123⟩ LogLevel.info
        [("module", JsVal.str "app")] "hello" JsVal.undefined := by
  constructor
  · decide
  · decide

/-- C8 (amended): rendering performs no I/O or mutation and is deterministic
given the clock: for every channel function the output is the timestamp of
the current instant followed by a remainder that depends only on level,
context, message and data — so two invocations with identical arguments at
the same instant are identical, and whenever the two instants make the
timestamps differ, the rendered lines differ. -/
theorem render_deterministic_given_clock (chan : Nat → Int) (h : Heap)
    (level : LogLevel) (ctx : Ctx) (msg : String) (data : JsVal) (now now' : JsDate) :
    (formatLogMessage chan h now level ctx msg data
        = formatTime now ++ renderRest chan h level ctx msg data)
  ∧ (formatLogMessage chan h now' level ctx msg data
        = formatTime now' ++ renderRest chan h level ctx msg data)
  ∧ (formatTime now ≠ formatTime now' →
      formatLogMessage chan h now level ctx msg data
        ≠ formatLogMessage chan h now' level ctx msg data) :=
  ⟨rfl, rfl, fun hne => append_right_ne _ _ _ hne⟩

/-- Witness for C8 (amended): at two concrete instants and a concrete sample
channel, the lines decompose over their timestamps, and since the timestamps
differ the lines differ. -/
theorem render_deterministic_given_clock_witness :
    (formatLogMessage (fun _ => 0) [] ⟨14, 2, 10, 20, 30, 123⟩ LogLevel.info
        [("module", JsVal.str "app")] "hi" JsVal.undefined
      = formatTime ⟨14, 2, 10, 20, 30, 123⟩
          ++ renderRest (fun _ => 0) [] LogLevel.info [("module", JsVal.str "app")]
              "hi" JsVal.undefined)
  ∧ (formatLogMessage (fun _ => 0) [] ⟨14, 2, 10, 21, 30, 123⟩ LogLevel.info
        [("module", JsVal.str "app")] "hi" JsVal.undefined
      = formatTime ⟨14, 2, 10, 21, 30, 123⟩
          ++ renderRest (fun _ => 0) [] LogLevel.info [("module", JsVal.str "app")]
              "hi" JsVal.undefined)
  ∧ formatLogMessage (fun _ => 0) [] ⟨14, 2, 10, 20, 30, 123⟩ LogLevel.info
        [("module", JsVal.str "app")] "hi" JsVal.undefined
      ≠ formatLogMessage (fun _ => 0) [] ⟨14, 2, 10, 21, 30, 123⟩ LogLevel.info
        [("module", JsVal.str "app")] "hi" JsVal.undefined :=
  have h := render_deterministic_given_clock (fun _ => 0) [] LogLevel.info
    [("module", JsVal.str "app")] "hi" JsVal.undefined
    ⟨14, 2, 10, 20, 30, 123⟩ ⟨14, 2, 10, 21, 30, 123⟩
  ⟨h.1, h.2.1, h.2.2 (by decide)⟩

/-- C10 counterexample: a debug-level render of a context whose `userId` is
the empty string differs from the render of the same context without
`userId` — the serialized context payload (a channel-free computation)
reveals `"userId": ""` while the absent key yields no payload block, so the
two are distinguishable at the public interface; the full lines, here with a
concrete sample channel (identical on both sides, the module being the
same), differ accordingly. -/
theorem empty_userid_distinguishable_cex :
    debugDataFor [] LogLevel.debug [("module", JsVal.str "m"), ("userId", JsVal.str "")]
        JsVal.undefined
      = "\n\x7b\n  \"userId\": \"\"\n\x7d"
  ∧ debugDataFor [] LogLevel.debug [("module", JsVal.str "m")] JsVal.undefined = ""
  ∧ formatLogMessage (fun _ => 0) [] sampleDate LogLevel.debug
        [("module", JsVal.str "m"), ("userId", JsVal.str "")] "x" JsVal.undefined
      ≠ formatLogMessage (fun _ => 0) [] sampleDate LogLevel.debug
        [("module", JsVal.str "m")] "x" JsVal.undefined := by
  refine ⟨by decide, by decide, by decide⟩

/-- C10 (amended): the user TAG is decided by truthiness, not key existence:
`setUserId("")` yields exactly the same logger as `setUserId(null)`, and the
user tag is omitted both for an empty-string `userId` and for an
`undefined` one.  Full-line indistinguishability, however, fails at debug
level, where the serialized context block still reveals an empty-string id
(see the counterexample). -/
theorem empty_userid_tag_omitted (lg : Logger) (ctx ctx2 : Ctx)
    (hctx : getKey ctx "userId" = JsVal.str "")
    (hctx2 : getKey ctx2 "userId" = JsVal.undefined) :
    lg.setUserId (some "") = lg.setUserId none
  ∧ userPart ctx = ""
  ∧ userPart ctx2 = "" := by
  refine ⟨rfl, ?_, ?_⟩
  · have h1 : truthy (JsVal.str "") = false := by decide
    simp [userPart, hctx, h1]
  · have h2 : truthy JsVal.undefined = false := by decide
    simp [userPart, hctx2, h2]

/-- Witness for C10 (amended) on a concrete logger and contexts. -/
theorem empty_userid_tag_omitted_witness :
    (Logger.new "m").setUserId (some "") = (Logger.new "m").setUserId none
  ∧ userPart [("module", JsVal.str "m"), ("userId", JsVal.str "")] = ""
  ∧ userPart [("module", JsVal.str "m"), ("userId", JsVal.undefined)] = "" :=
  empty_userid_tag_omitted (Logger.new "m")
    [("module", JsVal.str "m"), ("userId", JsVal.str "")]
    [("module", JsVal.str "m"), ("userId", JsVal.undefined)] (by decide) (by decide)

/-- C9 counterexample: on 14 March (`date = 14`, `month0 = 2`) the bracketed
timestamp — which every rendered line embeds via `formatTime`, for every
channel function — reads `[03/14 10:20:30.123]`: the month comes first, and
the day-first form `[14/03 10:20:30.123]` does not occur, refuting the claim
that the first two-digit field is the day of month.  The same holds of a full
line computed with a concrete sample channel. -/
theorem timestamp_month_first_cex :
    strContains (formatTime ⟨14, 2, 10, 20, 30, 123⟩) "[03/14 10:20:30.123]" = true
  ∧ strContains (formatTime ⟨14, 2, 10, 20, 30, 123⟩) "[14/03 10:20:30.123]" = false
  ∧ strContains (formatLogMessage (fun _ => 0) [] ⟨14, 2, 10, 20, 30, 123⟩ LogLevel.info
        [("module", JsVal.str "app")] "hello" JsVal.undefined) "[03/14 10:20:30.123]" = true
  ∧ strContains (formatLogMessage (fun _ => 0) [] ⟨14, 2, 10, 20, 30, 123⟩ LogLevel.info
        [("module", JsVal.str "app")] "hello" JsVal.undefined) "[14/03 10:20:30.123]" = false := by
  refine ⟨by decide, by decide, by decide, by decide⟩

/-- C9 (amended): every rendered line — for every channel function — contains
a bracketed timestamp of the fixed form `[MM/DD HH:MM:SS.mmm]`: the first
two-digit field is the MONTH and the second is the day of month, followed by
zero-padded two-digit hour, minute and second and a three-digit millisecond. -/
theorem timestamp_format (chan : Nat → Int) (h : Heap) (now : JsDate) (level : LogLevel)
    (ctx : Ctx) (msg : String) (data : JsVal)
    (h1 : now.month0 + 1 < 100) (h2 : now.date < 100) (h3 : now.hours < 100)
    (h4 : now.minutes < 100) (h5 : now.seconds < 100) (h6 : now.ms < 1000) :
    formatLogMessage chan h now level ctx msg data
      = "\x1b[2m" ++ ("[" ++ pad2 (now.month0 + 1) ++ "/" ++ pad2 now.date ++ " "
          ++ pad2 now.hours ++ ":" ++ pad2 now.minutes ++ ":" ++ pad2 now.seconds
          ++ "." ++ pad3 now.ms ++ "]")
        ++ ("\x1b[0m" ++ renderRest chan h level ctx msg data)
    ∧ (pad2 (now.month0 + 1)).length = 2 ∧ (pad2 now.date).length = 2
    ∧ (pad2 now.hours).length = 2 ∧ (pad2 now.minutes).length = 2
    ∧ (pad2 now.seconds).length = 2 ∧ (pad3 now.ms).length = 3 := by
  refine ⟨?_, pad2_length _ h1, pad2_length _ h2, pad2_length _ h3, pad2_length _ h4,
    pad2_length _ h5, pad3_length _ h6⟩
  simp only [formatLogMessage, formatTime, timestampCore, String.append_assoc]

/-- Witness for C9 (amended) at the sample instant, with a sample channel. -/
theorem timestamp_format_witness :
    formatLogMessage (fun _ => 0) [] sampleDate LogLevel.info [("module", JsVal.str "app")]
        "hi" JsVal.undefined
      = "\x1b[2m" ++ ("[" ++ pad2 (sampleDate.month0 + 1) ++ "/" ++ pad2 sampleDate.date ++ " "
          ++ pad2 sampleDate.hours ++ ":" ++ pad2 sampleDate.minutes ++ ":" ++ pad2 sampleDate.seconds
          ++ "." ++ pad3 sampleDate.ms ++ "]")
        ++ ("\x1b[0m" ++ renderRest (fun _ => 0) [] LogLevel.info [("module", JsVal.str "app")]
              "hi" JsVal.undefined)
    ∧ (pad2 (sampleDate.month0 + 1)).length = 2 ∧ (pad2 sampleDate.date).length = 2
    ∧ (pad2 sampleDate.hours).length = 2 ∧ (pad2 sampleDate.minutes).length = 2
    ∧ (pad2 sampleDate.seconds).length = 2 ∧ (pad3 sampleDate.ms).length = 3 :=
  timestamp_format (fun _ => 0) [] sampleDate LogLevel.info [("module", JsVal.str "app")]
    "hi" JsVal.undefined
    (by decide) (by decide) (by decide) (by decide) (by decide) (by decide)

/-- C3 counterexample: at error level with a `data.error` holding an
exception value, the rendered payload is the exception stack, not the
serialization of the combined object, and it carries no `userId` — the
remaining context is lost. -/
theorem error_payload_stack_cex :
    debugDataFor errHeapC3 LogLevel.error ctxC3 (JsVal.ref 1) = "\nError: boom\n    at x"
  ∧ strContains (debugDataFor errHeapC3 LogLevel.error ctxC3 (JsVal.ref 1)) "userId" = false := by
  decide

/-- C3 (amended): at error level the payload is always `formatDebugObject` of
the freshly built combined object
`errorData = \x7b ...data, context: \x7b ...context, module: undefined \x7d \x7d`:
its fields are the data fields unchanged plus the whole context (with
`module` replaced by `undefined`) under the `context` key, so it is never
empty; and whenever the combined object's `error` field is not an exception
value and serialization succeeds, the payload is exactly the newline-prefixed
JSON serialization of that object.  (When `data.error` is an exception the
payload is its stack instead — see the counterexample.) -/
theorem error_payload_combined (h : Heap) (ctx : Ctx) (data : JsVal) :
    (debugDataFor h LogLevel.error ctx data
        = formatDebugObject (errorHeap h ctx data) (errorDataRef h))
  ∧ (∀ k, k ≠ "context" →
      getKey (errorDataFields h ctx data) k = getKey (spreadFields h data) k)
  ∧ getKey (errorDataFields h ctx data) "context" = JsVal.ref h.length
  ∧ (∀ k, k ≠ "module" → getKey (errorInnerCtx ctx) k = getKey ctx k)
  ∧ getKey (errorInnerCtx ctx) "module" = JsVal.undefined
  ∧ (∀ s, isErrorVal (errorHeap h ctx data)
        (getField (errorHeap h ctx data) (errorDataRef h) "error") = false →
      (jsonStringify (errorHeap h ctx data) (errorDataRef h)).1 = SRes.ok (some s) →
      debugDataFor h LogLevel.error ctx data = "\n" ++ s) := by
  have hne : errorDataFields h ctx data ≠ [] := setKey_ne_nil _ _ _
  have hpos : 0 < (errorDataFields h ctx data).length := List.length_pos.mpr hne
  have hmain : debugDataFor h LogLevel.error ctx data
      = formatDebugObject (errorHeap h ctx data) (errorDataRef h) := by
    simp only [debugDataFor]
    rw [if_pos hpos]
  have hnode : (errorHeap h ctx data).getD (h.length + 1) default
      = mkObj (errorDataFields h ctx data) := getD_append_at_succ h _ _
  have hkeys : objKeys (errorHeap h ctx data) (errorDataRef h)
      = (errorDataFields h ctx data).map Prod.fst := by
    show ((errorHeap h ctx data).getD (h.length + 1) default).fields.map Prod.fst = _
    rw [hnode]
    rfl
  have hisE : isErrorVal (errorHeap h ctx data) (errorDataRef h) = false := by
    show ((errorHeap h ctx data).getD (h.length + 1) default).isError = false
    rw [hnode]
    rfl
  refine ⟨hmain, ?_, ?_, ?_, ?_, ?_⟩
  · intro k hk
    rw [errorDataFields, getKey_setKey, if_neg (fun he => hk he.symm)]
  · rw [errorDataFields, getKey_setKey, if_pos rfl]
  · intro k hk
    rw [errorInnerCtx, getKey_setKey, if_neg (fun he => hk he.symm)]
  · rw [errorInnerCtx, getKey_setKey, if_pos rfl]
  · intro s herr hjs
    rw [hmain]
    unfold formatDebugObject
    rw [if_neg (by
      rintro (hor | hor)
      · simp [errorDataRef, truthy] at hor
      · rw [hkeys, List.length_map] at hor
        exact hne (List.length_eq_zero.mp hor))]
    rw [if_neg (by rw [hisE]; simp)]
    rw [if_neg (by rw [herr]; simp)]
    rcases hjs2 : jsonStringify (errorHeap h ctx data) (errorDataRef h) with ⟨res, sn⟩
    rw [hjs2] at hjs
    cases res with
    | ok o =>
      have ho : o = some s := by simpa using hjs
      subst ho
      rfl
    | thrown m2 => simp at hjs
    | fuelOut => simp at hjs

/-- Witness for C3 (amended): with no data and a context carrying a user id,
the error payload is the serialization of the combined object, which shows
the remaining context. -/
theorem error_payload_combined_witness :
    getKey (errorDataFields [] [("module", JsVal.str "a"), ("userId", JsVal.str "u")]
        JsVal.undefined) "context" = JsVal.ref 0
  ∧ getKey (errorInnerCtx [("module", JsVal.str "a"), ("userId", JsVal.str "u")]) "userId"
      = JsVal.str "u"
  ∧ debugDataFor [] LogLevel.error [("module", JsVal.str "a"), ("userId", JsVal.str "u")]
        JsVal.undefined
      = "\n\x7b\n  \"context\": \x7b\n    \"userId\": \"u\"\n  \x7d\n\x7d" :=
  ⟨(error_payload_combined [] [("module", JsVal.str "a"), ("userId", JsVal.str "u")]
      JsVal.undefined).2.2.1,
   (error_payload_combined [] [("module", JsVal.str "a"), ("userId", JsVal.str "u")]
      JsVal.undefined).2.2.2.1 "userId" (by decide),
   (error_payload_combined [] [("module", JsVal.str "a"), ("userId", JsVal.str "u")]
      JsVal.undefined).2.2.2.2.2
     "\x7b\n  \"context\": \x7b\n    \"userId\": \"u\"\n  \x7d\n\x7d" (by decide) (by decide)⟩

/-- C4: the serializer is total — at the fuel bound `jsonStringify` actually
uses, serialization never runs out of fuel, for every heap (cyclic graphs
included) and every value; an object reference already in the visited set is
replaced by the JSON string `"[Circular]"`; and a thrown serialization error
is caught by `formatDebugObject` and becomes the bracketed diagnostic string,
so rendering never throws. -/
theorem serializer_total_and_safe :
    (∀ (h : Heap) (v : JsVal), (jsonStringify h v).1 ≠ SRes.fuelOut)
  ∧ (∀ (h : Heap) (fuel : Nat) (seen : List Nat) (depth : Nat) (a : Nat),
      a ∈ seen → 0 < fuel →
      strVal h fuel seen depth (JsVal.ref a) = (SRes.ok (some "\"[Circular]\""), seen))
  ∧ (∀ (h : Heap) (obj : JsVal) (m : String),
      truthy obj = true → (objKeys h obj).length ≠ 0 →
      isErrorVal h obj = false → isErrorVal h (getField h obj "error") = false →
      (jsonStringify h obj).1 = SRes.thrown m →
      formatDebugObject h obj = "\n[Unable to stringify object: " ++ m ++ "]") := by
  refine ⟨jsonStringify_ne_fuelOut, ?_, ?_⟩
  · intro h fuel seen depth a ha hfuel
    cases fuel with
    | zero => omega
    | succ f =>
      show strValF h (strVal h f) seen depth (JsVal.ref a) = _
      simp only [strValF]
      rw [if_pos ha, show jsQuote "[Circular]" = "\"[Circular]\"" by decide]
  · intro h obj m h1 h2 h3 h4 h5
    unfold formatDebugObject
    have hcond : ¬(truthy obj = false ∨ (objKeys h obj).length = 0) := by
      rintro (hor | hor)
      · rw [h1] at hor
        simp at hor
      · exact h2 hor
    rw [if_neg hcond]
    rw [if_neg (by rw [h3]; simp)]
    rw [if_neg (by rw [h4]; simp)]
    rcases hjs : jsonStringify h obj with ⟨res, sn⟩
    rw [hjs] at h5
    cases res with
    | ok o => simp at h5
    | thrown m2 =>
      have hm : m2 = m := by simpa using h5
      subst hm
      rfl
    | fuelOut => simp at h5

/-- Witness for C4: the self-referencing one-object heap serializes (no fuel
exhaustion), a seen reference yields the circular placeholder, and the BigInt
heap yields the caught-diagnostic payload. -/
theorem serializer_total_and_safe_witness :
    (jsonStringify cycHeap (JsVal.ref 0)).1 ≠ SRes.fuelOut
  ∧ strVal cycHeap 2 [0] 1 (JsVal.ref 0) = (SRes.ok (some "\"[Circular]\""), [0])
  ∧ formatDebugObject bigHeap (JsVal.ref 0)
      = "\n[Unable to stringify object: TypeError: Do not know how to serialize a BigInt]" :=
  ⟨serializer_total_and_safe.1 cycHeap (JsVal.ref 0),
   serializer_total_and_safe.2.1 cycHeap 2 [0] 1 0 (by decide) (by decide),
   serializer_total_and_safe.2.2 bigHeap (JsVal.ref 0)
     "TypeError: Do not know how to serialize a BigInt" (by decide) (by decide)
     (by decide) (by decide) (by decide)⟩

end Bytware
